import Mathlib

/-!
Verification of the narrative state & graph-analysis engine of novascribe-vn.

The definitions below are a shallow embedding of the TypeScript source:
  * `src/unnamed/part_001` (types)            : the data model
  * `src/unnamed/part_000` (constants)        : `getSceneCategory`
  * `src/unnamed/part_002` (StateEvaluator)   : condition evaluation and effects
  * `src/unnamed/part_003` (StateAnalyzer)    : reachability and conflict detection
  * `src/components/Simulator.tsx`            : the interactive simulation engine

JavaScript runtime values that can appear in `Condition.value`, `Effect.value`
and `Variable.currentValue` are modelled by the tagged union `JSValue`
(number | NaN | string | boolean), with the JS coercion rules the engine
relies on (loose equality, `Number(...)` casts, `ToBoolean`) spelled out
explicitly.  Numbers are modelled by the rationals; `nan` is a separate tag so
that `Number(...)` casts of non-numeric strings behave as in JS (every
comparison against NaN is false, arithmetic on NaN stays NaN).  String-to-number
coercion (`jsStrToNum`) is a partial model of the ToNumber abstract operation:
the empty string converts to 0 and unsigned decimal integer strings convert to
their value; every other string converts to NaN.  This covers all string
literals handled in this development.
-/

/-- A JavaScript runtime value as used by the rule language. -/
inductive JSValue where
  | num (q : ℚ)
  | nan
  | str (s : String)
  | bool (b : Bool)
  deriving DecidableEq

/-- Accumulating decimal parser over a list of characters; `none` as soon as a
non-digit appears. -/
def decDigitsAux : List Char → ℕ → Option ℕ
  | [], acc => some acc
  | c :: cs, acc =>
    if c.isDigit then decDigitsAux cs (acc * 10 + (c.toNat - '0'.toNat)) else none

/-- Partial model of the JS ToNumber operation on strings: empty string is 0,
unsigned decimal integer strings parse to their value, everything else is NaN
(`none`). -/
def jsStrToNum (s : String) : Option ℚ :=
  match s.data with
  | [] => some 0
  | c :: cs => (decDigitsAux (c :: cs) 0).map (fun n => (n : ℚ))

/-- The JS `Number(...)` cast; `none` is NaN. -/
def toNumber : JSValue → Option ℚ
  | .num q => some q
  | .nan => none
  | .str s => jsStrToNum s
  | .bool b => some (if b then 1 else 0)

/-- JS loose (`==`) equality restricted to number/NaN/string/boolean values:
same-type values compare directly, number-vs-string coerces the string with
ToNumber, and a boolean operand is coerced to a number first.  Every comparison
involving NaN is false. -/
def looseEq : JSValue → JSValue → Bool
  | .num a, .num b => a == b
  | .num a, .str s => match jsStrToNum s with | some b => a == b | none => false
  | .str s, .num b => match jsStrToNum s with | some a => a == b | none => false
  | .str a, .str b => a == b
  | .bool a, .bool b => a == b
  | .num a, .bool b => a == (if b then (1 : ℚ) else 0)
  | .bool a, .num b => (if a then (1 : ℚ) else 0) == b
  | .str s, .bool b =>
    match jsStrToNum s with | some a => a == (if b then (1 : ℚ) else 0) | none => false
  | .bool a, .str s =>
    match jsStrToNum s with | some b => (if a then (1 : ℚ) else 0) == b | none => false
  | .nan, _ => false
  | _, .nan => false

/-- JS strict (`===`) equality: same type and same value; NaN is not equal to
itself. -/
def strictEq : JSValue → JSValue → Bool
  | .num a, .num b => a == b
  | .str a, .str b => a == b
  | .bool a, .bool b => a == b
  | _, _ => false

/-- JS ToBoolean: 0, NaN, and the empty string are falsy. -/
def truthy : JSValue → Bool
  | .num q => q != 0
  | .nan => false
  | .str s => s != ""
  | .bool b => b

/-- `Number(a) + Number(b)`: NaN-propagating rational addition. -/
def jsAdd (a b : JSValue) : JSValue :=
  match toNumber a, toNumber b with
  | some x, some y => .num (x + y)
  | _, _ => .nan

/-- `Number(a) - Number(b)`: NaN-propagating rational subtraction. -/
def jsSub (a b : JSValue) : JSValue :=
  match toNumber a, toNumber b with
  | some x, some y => .num (x - y)
  | _, _ => .nan

/-- The JS `!` operator: ToBoolean then negation. -/
def jsNot (a : JSValue) : JSValue := .bool (!truthy a)

/-- `Number(a) > Number(b)`; false whenever an operand is NaN. -/
def jsGt (a b : JSValue) : Bool :=
  match toNumber a, toNumber b with
  | some x, some y => decide (x > y)
  | _, _ => false

/-- `Number(a) < Number(b)`; false whenever an operand is NaN. -/
def jsLt (a b : JSValue) : Bool :=
  match toNumber a, toNumber b with
  | some x, some y => decide (x < y)
  | _, _ => false

/-- `Number(a) >= Number(b)`; false whenever an operand is NaN. -/
def jsGe (a b : JSValue) : Bool :=
  match toNumber a, toNumber b with
  | some x, some y => decide (x >= y)
  | _, _ => false

/-- `Number(a) <= Number(b)`; false whenever an operand is NaN. -/
def jsLe (a b : JSValue) : Bool :=
  match toNumber a, toNumber b with
  | some x, some y => decide (x <= y)
  | _, _ => false

/-- Rendering of a value inside a template string (approximate: only the
conflict messages use it, and no claim depends on message text). -/
def jsDisplay : JSValue → String
  | .num q => toString q
  | .nan => "NaN"
  | .str s => s
  | .bool b => if b then "true" else "false"

/-! ## Data model (src/unnamed/part_001, types.ts) -/

/-- `VNCondition.operator`. -/
inductive CondOp where
  | eq | ne | gt | lt | ge | le
  deriving DecidableEq

/-- Rendering of an operator inside a template string. -/
def CondOp.repr : CondOp → String
  | .eq => "==" | .ne => "!=" | .gt => ">" | .lt => "<" | .ge => ">=" | .le => "<="

/-- `VNEffect.operation`. -/
inductive EffOp where
  | set | add | subtract | toggle
  deriving DecidableEq

/-- `VNVariable.type` (declared kind; advisory only, the evaluator never
consults it). -/
inductive VarKind where
  | boolean | number | string
  deriving DecidableEq

/-- `VNVariable`.  The advisory `min`/`max` fields are omitted: no embedded
operation reads them. -/
structure VNVariable where
  id : String
  name : String
  kind : VarKind
  defaultValue : JSValue
  currentValue : JSValue
  deriving DecidableEq

/-- `VNCondition`. -/
structure VNCondition where
  variableId : String
  operator : CondOp
  value : JSValue
  deriving DecidableEq

/-- `VNEffect`. -/
structure VNEffect where
  variableId : String
  operation : EffOp
  value : JSValue
  deriving DecidableEq

/-- `EdgeType`. -/
inductive EdgeType where
  | FLOW | OPTION | TRIGGER | CONSTRAINT
  deriving DecidableEq

/-- Graph edge.  Optional fields default to `none` as in the TS interface. -/
structure VNEdge where
  id : String
  source : String
  target : String
  type : EdgeType
  label : Option String := none
  weight : Option ℚ := none
  conditions : Option (List VNCondition) := none
  effects : Option (List VNEffect) := none
  deriving DecidableEq

/-- `VNNodeData`.  Display-only fields (content, location, tags, position,
mutexGroup, priority, hasChoice, groupFrame, branchChoiceIndex, options) are
omitted: no embedded operation reads them. -/
structure VNNodeData where
  id : String
  label : String
  preconditions : List VNCondition
  effects : List VNEffect
  isPoolMember : Option Bool := none
  isBranch : Option Bool := none
  deriving DecidableEq

/-- `VNGraph` (pools are declarative only and never consumed by the embedded
operations, so the pool list is kept abstract as a list of ids). -/
structure VNGraph where
  nodes : List VNNodeData
  edges : List VNEdge
  vars : List VNVariable
  pools : List String := []
  deriving DecidableEq

/-- `SceneCategory`. -/
inductive SceneCategory where
  | STANDARD | FREE | START | END | BRANCH
  deriving DecidableEq

/-- `NarrativeConflict.type`. -/
inductive ConflictType where
  | unreachable | dead_end | contradictory
  deriving DecidableEq

/-- `NarrativeConflict.severity`. -/
inductive Severity where
  | error | warning | info
  deriving DecidableEq

/-- `NarrativeConflict`. -/
structure NarrativeConflict where
  id : String
  type : ConflictType
  severity : Severity
  nodeIds : List String
  edgeIds : Option (List String) := none
  message : String
  suggestion : Option String := none
  deriving DecidableEq

/-! ## Scene classifier (src/unnamed/part_000, constants.ts) -/

/-- `getSceneCategory` (constants.ts lines 5-25): `node?.isBranch` wins
unconditionally, otherwise the category is derived from the degrees. -/
def getSceneCategory (nodeId : String) (graph : VNGraph) : SceneCategory :=
  let node := graph.nodes.find? (fun n => n.id == nodeId)
  if (node.bind (fun n => n.isBranch)).getD false then SceneCategory.BRANCH
  else
    let incomingEdges := graph.edges.filter (fun e => e.target == nodeId)
    let outgoingEdges := graph.edges.filter (fun e => e.source == nodeId)
    let hasIncoming : Bool := decide (incomingEdges.length > 0)
    let hasOutgoing : Bool := decide (outgoingEdges.length > 0)
    if hasIncoming && hasOutgoing then SceneCategory.STANDARD
    else if !hasIncoming && !hasOutgoing then SceneCategory.FREE
    else if !hasIncoming && hasOutgoing then SceneCategory.START
    else if hasIncoming && !hasOutgoing then SceneCategory.END
    else SceneCategory.FREE

/-! ## State evaluator (src/unnamed/part_002, stateEvaluator.ts) -/

namespace StateEvaluator

/-- `StateEvaluator.evaluateCondition`: look up the variable (first match); if
absent the condition is false; otherwise compare per the operator with JS
coercions. -/
def evaluateCondition (condition : VNCondition) (vars : List VNVariable) : Bool :=
  match vars.find? (fun v => v.id == condition.variableId) with
  | none => false
  | some var =>
    let currentValue := var.currentValue
    let targetValue := condition.value
    match condition.operator with
    | .eq => looseEq currentValue targetValue
    | .ne => !looseEq currentValue targetValue
    | .gt => jsGt currentValue targetValue
    | .lt => jsLt currentValue targetValue
    | .ge => jsGe currentValue targetValue
    | .le => jsLe currentValue targetValue

/-- `StateEvaluator.evaluateConditions`: conjunction over the list. -/
def evaluateConditions (conditions : List VNCondition) (vars : List VNVariable) : Bool :=
  conditions.all (fun cond => evaluateCondition cond vars)

/-- Replace the first element satisfying `p` (the JS pattern
`array.find(...)` followed by in-place mutation of the found object). -/
def updateFirst (p : α → Bool) (f : α → α) : List α → List α
  | [] => []
  | x :: xs => if p x then f x :: xs else x :: updateFirst p f xs

/-- The mutation a single effect performs on its target variable. -/
def applyOperation (effect : VNEffect) (v : VNVariable) : VNVariable :=
  match effect.operation with
  | .set => { v with currentValue := effect.value }
  | .add => { v with currentValue := jsAdd v.currentValue effect.value }
  | .subtract => { v with currentValue := jsSub v.currentValue effect.value }
  | .toggle => { v with currentValue := jsNot v.currentValue }

/-- `StateEvaluator.applyEffect`: copy every variable, then mutate the first
one whose id matches (no-op when absent). -/
def applyEffect (effect : VNEffect) (vars : List VNVariable) : List VNVariable :=
  let newVars := vars.map (fun v => { v with currentValue := v.currentValue })
  updateFirst (fun v => v.id == effect.variableId) (applyOperation effect) newVars

/-- `StateEvaluator.cloneVariables`. -/
def cloneVariables (vars : List VNVariable) : List VNVariable :=
  vars.map (fun v => { v with currentValue := v.currentValue })

/-- `StateEvaluator.applyEffects`: clone, then fold `applyEffect` left to
right. -/
def applyEffects (effects : List VNEffect) (vars : List VNVariable) : List VNVariable :=
  effects.foldl (fun newVars eff => applyEffect eff newVars) (cloneVariables vars)

end StateEvaluator

/-! ## Graph analyzer (src/unnamed/part_003, stateAnalyzer.ts) -/

namespace StateAnalyzer

/-- Loop body of the breadth-first search in `isNodeReachable`.  The JS loop
terminates because the visited set only grows; here the recursion is driven by
an explicit fuel argument that dominates the true iteration count (see
`bfsFuel`). -/
def bfsLoop (targetNodeId : String) (graph : VNGraph) :
    Nat → List String → List String → Bool
  | 0, _, _ => false
  | _ + 1, [], _ => false
  | fuel + 1, current :: rest, visited =>
    if current = targetNodeId then true
    else if current ∈ visited then bfsLoop targetNodeId graph fuel rest visited
    else
      let visited' := current :: visited
      let pushes := (graph.edges.filter (fun e => e.source == current)).filterMap
        (fun e => if e.target ∈ visited' then none else some e.target)
      bfsLoop targetNodeId graph fuel (rest ++ pushes) visited'

/-- An upper bound on the number of iterations the JS while-loop can perform:
every iteration dequeues one element; at most `nodes.length` elements are
enqueued initially, and further elements are enqueued only when a not-yet
visited id is dequeued — at most `nodes.length + edges.length` distinct ids can
ever appear in the queue, each enqueueing at most `edges.length` targets. -/
def bfsFuel (graph : VNGraph) : Nat :=
  graph.nodes.length + (graph.nodes.length + graph.edges.length) * graph.edges.length + 1

/-- `StateAnalyzer.isNodeReachable`: BFS from the set of root nodes (no
incoming edge), falling back to the first node of the collection when the graph
is non-empty but has no root. -/
def isNodeReachable (targetNodeId : String) (graph : VNGraph) : Bool :=
  let startNodes := graph.nodes.filter
    (fun n => !(graph.edges.any (fun e => e.target == n.id)))
  let queue :=
    if startNodes.isEmpty then
      match graph.nodes with
      | [] => []
      | n :: _ => [n.id]
    else startNodes.map (fun n => n.id)
  bfsLoop targetNodeId graph (bfsFuel graph) queue []

/-- `StateAnalyzer.areConditionsContradictory`: same strict-equal value with
`==` against `!=`, or one of four numeric range patterns. -/
def areConditionsContradictory (c1 c2 : VNCondition) : Bool :=
  if c1.variableId != c2.variableId then false
  else if strictEq c1.value c2.value
      && ((decide (c1.operator = CondOp.eq) && decide (c2.operator = CondOp.ne))
        || (decide (c1.operator = CondOp.ne) && decide (c2.operator = CondOp.eq))) then
    true
  else
    match c1.value, c2.value with
    | .num a, .num b =>
      (decide (c1.operator = CondOp.gt) && decide (c2.operator = CondOp.lt) && decide (a >= b))
      || (decide (c1.operator = CondOp.lt) && decide (c2.operator = CondOp.gt) && decide (a <= b))
      || (decide (c1.operator = CondOp.ge) && decide (c2.operator = CondOp.lt) && decide (a >= b))
      || (decide (c1.operator = CondOp.lt) && decide (c2.operator = CondOp.ge) && decide (a <= b))
    | _, _ => false

/-- The string pushed for a contradictory pair (template literal in the
source). -/
def condPairMessage (varId : String) (c1 c2 : VNCondition) : String :=
  varId ++ " " ++ c1.operator.repr ++ " " ++ jsDisplay c1.value
    ++ " 与 " ++ c2.operator.repr ++ " " ++ jsDisplay c2.value

/-- The double loop `for i; for j > i` over a group of conditions, collecting a
message per contradictory pair in scan order. -/
def pairContradictionMessages (varId : String) : List VNCondition → List String
  | [] => []
  | c :: rest =>
    rest.filterMap
        (fun c2 => if areConditionsContradictory c c2 then some (condPairMessage varId c c2)
          else none)
      ++ pairContradictionMessages varId rest

/-- Append a condition to the entry of its key, or create a new entry at the
end — the insertion-order behavior of the JS `Map` used for grouping. -/
def insertGrouped (c : VNCondition) :
    List (String × List VNCondition) → List (String × List VNCondition)
  | [] => [(c.variableId, [c])]
  | (k, cs) :: rest =>
    if k = c.variableId then (k, cs ++ [c]) :: rest
    else (k, cs) :: insertGrouped c rest

/-- Group conditions by `variableId`, preserving both the first-seen key order
and the order of conditions within a group. -/
def groupByVariable (conds : List VNCondition) : List (String × List VNCondition) :=
  conds.foldl (fun acc c => insertGrouped c acc) []

/-- Contradiction messages of one condition list: every group of size at least
two is scanned pairwise. -/
def contradictionMessages (conds : List VNCondition) : List String :=
  ((groupByVariable conds).map
    (fun g => if g.2.length >= 2 then pairContradictionMessages g.1 g.2 else [])).flatten

/-- `StateAnalyzer.findContradictoryPreconditions`: one record per node whose
own preconditions contain at least one contradictory pair. -/
def findContradictoryPreconditions (graph : VNGraph) : List (String × List String) :=
  graph.nodes.filterMap (fun node =>
    let contradictions := contradictionMessages node.preconditions
    if contradictions.isEmpty then none else some (node.id, contradictions))

/-- `StateAnalyzer.findEdgeContradictions`: the same pairwise logic applied to
each edge's declared conditions; absent or empty condition arrays are
skipped. -/
def findEdgeContradictions (graph : VNGraph) : List (String × List String) :=
  graph.edges.filterMap (fun edge =>
    match edge.conditions with
    | none => none
    | some conds =>
      if conds.isEmpty then none
      else
        let contradictions := contradictionMessages conds
        if contradictions.isEmpty then none else some (edge.id, contradictions))

/-- Conflict record of check 1 for one unreachable node. -/
def unreachableConflictFor (node : VNNodeData) : NarrativeConflict :=
  { id := "unreachable-" ++ node.id
    type := ConflictType.unreachable
    severity := Severity.warning
    nodeIds := [node.id]
    message := "节点 \"" ++ node.label ++ "\" 无法从任何起点到达"
    suggestion := some "添加入边或删除此节点" }

/-- The dead-end test of check 2: no outgoing edge, at least one incoming edge
(`isEndNode` in the source means the opposite: no incoming edge), and not a
pool member. -/
def isDeadEnd (graph : VNGraph) (node : VNNodeData) : Bool :=
  let hasOutgoing := graph.edges.any (fun e => e.source == node.id)
  let isEndNode := !(graph.edges.any (fun e => e.target == node.id))
  !hasOutgoing && !isEndNode && !(node.isPoolMember.getD false)

/-- Conflict record of check 2 for one dead-end node. -/
def deadEndConflictFor (node : VNNodeData) : NarrativeConflict :=
  { id := "deadend-" ++ node.id
    type := ConflictType.dead_end
    severity := Severity.warning
    nodeIds := [node.id]
    message := "节点 \"" ++ node.label ++ "\" 没有出边（剧情死胡同）"
    suggestion := some "添加出边或将其标记为结局" }

/-- Conflict record of check 3 for one node with contradictory preconditions
(`node?.label || nodeId` falls back to the id when the node is missing or its
label is the empty string). -/
def contradictionConflictFor (graph : VNGraph) (r : String × List String) : NarrativeConflict :=
  let node := graph.nodes.find? (fun n => n.id == r.1)
  { id := "contradiction-" ++ r.1
    type := ConflictType.contradictory
    severity := Severity.error
    nodeIds := [r.1]
    message := "节点 \""
      ++ (match node with
          | some n => if n.label = "" then r.1 else n.label
          | none => r.1)
      ++ "\" 有矛盾的前置条件: " ++ String.intercalate ", " r.2
    suggestion := some "删除或修改冲突的条件" }

/-- Conflict record of check 4 for one edge with contradictory conditions
(`edge?.source || ''` evaluates to the source id, or the empty string when the
edge cannot be found again). -/
def edgeContradictionConflictFor (graph : VNGraph) (r : String × List String) :
    NarrativeConflict :=
  let edge := graph.edges.find? (fun e => e.id == r.1)
  { id := "edge-contradiction-" ++ r.1
    type := ConflictType.contradictory
    severity := Severity.error
    nodeIds := [(edge.map (fun e => e.source)).getD "", (edge.map (fun e => e.target)).getD ""]
    edgeIds := some [r.1]
    message := "连线有矛盾的条件: " ++ String.intercalate ", " r.2
    suggestion := some "删除或修改冲突的条件" }

/-- Check 1: unreachable nodes. -/
def unreachableConflicts (graph : VNGraph) : List NarrativeConflict :=
  graph.nodes.filterMap (fun node =>
    if isNodeReachable node.id graph then none else some (unreachableConflictFor node))

/-- Check 2: dead ends. -/
def deadEndConflicts (graph : VNGraph) : List NarrativeConflict :=
  graph.nodes.filterMap (fun node =>
    if isDeadEnd graph node then some (deadEndConflictFor node) else none)

/-- Check 3: contradictory node preconditions. -/
def contradictionConflicts (graph : VNGraph) : List NarrativeConflict :=
  (findContradictoryPreconditions graph).map (contradictionConflictFor graph)

/-- Check 4: contradictory edge conditions. -/
def edgeContradictionConflicts (graph : VNGraph) : List NarrativeConflict :=
  (findEdgeContradictions graph).map (edgeContradictionConflictFor graph)

/-- `StateAnalyzer.detectConflicts`: the four checks in source order. -/
def detectConflicts (graph : VNGraph) : List NarrativeConflict :=
  unreachableConflicts graph ++ deadEndConflicts graph
    ++ contradictionConflicts graph ++ edgeContradictionConflicts graph

end StateAnalyzer

/-! ## Simulation engine (src/components/Simulator.tsx) -/

namespace Simulator

/-- The React component state of the simulator that the claims talk about:
current node, variable snapshot, trace log. -/
structure SimState where
  currentNode : Option VNNodeData
  simVariables : List VNVariable
  log : List String
  deriving DecidableEq

/-- The inline condition check of `availableConnections` (Simulator.tsx lines
83-97).  It mirrors `StateEvaluator.evaluateCondition` except in the
variable-not-found case, where it returns `true` instead of `false`. -/
def evalPrecondition (cond : VNCondition) (simVariables : List VNVariable) : Bool :=
  match simVariables.find? (fun v => v.id == cond.variableId) with
  | none => true
  | some v =>
    let curr := v.currentValue
    let target := cond.value
    match cond.operator with
    | .eq => looseEq curr target
    | .ne => !looseEq curr target
    | .gt => jsGt curr target
    | .lt => jsLt curr target
    | .ge => jsGe curr target
    | .le => jsLe curr target

/-- `availableConnections` (Simulator.tsx lines 77-98): edges out of the
current node, paired with the looked-up target, kept when the target exists
and all of its preconditions pass the inline check. -/
def availableConnections (graph : VNGraph) (currentId : String)
    (simVariables : List VNVariable) : List (VNEdge × Option VNNodeData) :=
  ((graph.edges.filter (fun e => e.source == currentId)).map
      (fun e => (e, graph.nodes.find? (fun n => n.id == e.target)))).filter
    (fun conn =>
      match conn.2 with
      | none => false
      | some target => target.preconditions.all (fun cond => evalPrecondition cond simVariables))

/-- The effect application inside `handleNext`: the array is copied shallowly
and the first variable matching each effect is updated in place, so later
effects see earlier results. -/
def handleNextEffects (effects : List VNEffect) (simVariables : List VNVariable) :
    List VNVariable :=
  effects.foldl
    (fun vs eff =>
      StateEvaluator.updateFirst (fun v => v.id == eff.variableId)
        (StateEvaluator.applyOperation eff) vs)
    simVariables

/-- `handleNext` (Simulator.tsx lines 32-51): look up the target id; when
found, move there, apply the target node effects and append a trace line; when
not found, leave the state untouched. -/
def handleNext (graph : VNGraph) (targetId : String) (st : SimState) : SimState :=
  match graph.nodes.find? (fun n => n.id == targetId) with
  | none => st
  | some nextNode =>
    { currentNode := some nextNode
      simVariables := handleNextEffects nextNode.effects st.simVariables
      log := st.log ++ ["Beat: " ++ nextNode.label] }

/-- `e.weight || 10`: a declared non-zero weight, else 10 (JS `||` also treats
a declared weight of 0 as absent). -/
def effWeight (e : VNEdge) : ℚ :=
  match e.weight with
  | none => 10
  | some w => if w = 0 then 10 else w

/-- The linear scan of `performPoolRoll`: subtract weights until the draw falls
inside the span of an edge; `none` when the draw is at least the total
weight. -/
def scanSelect : List VNEdge → ℚ → Option VNEdge
  | [], _ => none
  | e :: rest, r => if r < effWeight e then some e else scanSelect rest (r - effWeight e)

/-- The edge selected by `performPoolRoll` for draw `r`: the scan result, or
the first edge when the scan falls through (`selectedEdge` is initialised to
`edges[0]` in the source); `none` when there are no outgoing edges. -/
def poolRollSelect (edges : List VNEdge) (r : ℚ) : Option VNEdge :=
  match edges with
  | [] => none
  | e0 :: _ => some ((scanSelect edges r).getD e0)

/-- `performPoolRoll` (Simulator.tsx lines 53-73) with the uniform draw
`Math.random() * totalWeight` made explicit as the parameter `r`: collect the
outgoing edges of `poolId`, select one by roulette-wheel scan, log, and step to
its target. -/
def performPoolRoll (graph : VNGraph) (poolId : String) (r : ℚ) (st : SimState) : SimState :=
  let edges := graph.edges.filter (fun e => e.source == poolId)
  match poolRollSelect edges r with
  | none => st
  | some selectedEdge =>
    handleNext graph selectedEdge.target
      { st with log := st.log ++ ["[Roll: Selection from Random Pool]"] }

end Simulator

/-! ## Shared helper lemmas -/

/-- Cloning is the identity on values (the JS spread copy only matters for
reference identity, which a value semantics cannot distinguish). -/
theorem cloneVariables_eq_self (vars : List VNVariable) :
    StateEvaluator.cloneVariables vars = vars := by
  unfold StateEvaluator.cloneVariables
  induction vars with
  | nil => rfl
  | cons v vs ih => simp [ih]

theorem jsStrToNum_five : jsStrToNum "5" = some 5 := by decide

/-- Bridge between the boolean degree test of the classifier and its
propositional reading. -/
theorem filter_length_pos_iff {p : VNEdge → Bool} {l : List VNEdge} :
    (0 < (l.filter p).length) ↔ ∃ e ∈ l, p e = true := by
  rw [List.length_pos_iff_exists_mem]
  constructor
  · rintro ⟨e, he⟩
    exact ⟨e, (List.mem_filter.mp he).1, (List.mem_filter.mp he).2⟩
  · rintro ⟨e, hel, hpe⟩
    exact ⟨e, List.mem_filter.mpr ⟨hel, hpe⟩⟩

/-! ## C3 -/

/-- C3: an existing node with `isBranch` classifies as BRANCH regardless of
edges; otherwise the category is STANDARD with both an incoming and an
outgoing edge, FREE with neither, START with only outgoing, END with only
incoming; and a node id absent from the collection and referenced by no edge
classifies as FREE. -/
theorem getSceneCategory_cases (nodeId : String) (graph : VNGraph) :
    ((∃ n, graph.nodes.find? (fun m => m.id == nodeId) = some n ∧ n.isBranch = some true) →
        getSceneCategory nodeId graph = SceneCategory.BRANCH)
    ∧ (¬(∃ n, graph.nodes.find? (fun m => m.id == nodeId) = some n ∧ n.isBranch = some true) →
        (((∃ e ∈ graph.edges, e.target = nodeId) → (∃ e ∈ graph.edges, e.source = nodeId) →
            getSceneCategory nodeId graph = SceneCategory.STANDARD)
        ∧ ((∀ e ∈ graph.edges, e.target ≠ nodeId) → (∀ e ∈ graph.edges, e.source ≠ nodeId) →
            getSceneCategory nodeId graph = SceneCategory.FREE)
        ∧ ((∀ e ∈ graph.edges, e.target ≠ nodeId) → (∃ e ∈ graph.edges, e.source = nodeId) →
            getSceneCategory nodeId graph = SceneCategory.START)
        ∧ ((∃ e ∈ graph.edges, e.target = nodeId) → (∀ e ∈ graph.edges, e.source ≠ nodeId) →
            getSceneCategory nodeId graph = SceneCategory.END)))
    ∧ (graph.nodes.find? (fun m => m.id == nodeId) = none →
        (∀ e ∈ graph.edges, e.target ≠ nodeId) → (∀ e ∈ graph.edges, e.source ≠ nodeId) →
        getSceneCategory nodeId graph = SceneCategory.FREE) := by
  have hIn : ∀ (h : ∃ e ∈ graph.edges, e.target = nodeId),
      (0 < (graph.edges.filter (fun e => e.target == nodeId)).length) := by
    intro h
    rw [filter_length_pos_iff]
    simpa using h
  have hInNot : ∀ (h : ∀ e ∈ graph.edges, e.target ≠ nodeId),
      ¬(0 < (graph.edges.filter (fun e => e.target == nodeId)).length) := by
    intro h hcon
    rw [filter_length_pos_iff] at hcon
    rcases hcon with ⟨e, hel, hpe⟩
    exact h e hel (by simpa using hpe)
  have hOut : ∀ (h : ∃ e ∈ graph.edges, e.source = nodeId),
      (0 < (graph.edges.filter (fun e => e.source == nodeId)).length) := by
    intro h
    rw [filter_length_pos_iff]
    simpa using h
  have hOutNot : ∀ (h : ∀ e ∈ graph.edges, e.source ≠ nodeId),
      ¬(0 < (graph.edges.filter (fun e => e.source == nodeId)).length) := by
    intro h hcon
    rw [filter_length_pos_iff] at hcon
    rcases hcon with ⟨e, hel, hpe⟩
    exact h e hel (by simpa using hpe)
  refine ⟨?_, ?_, ?_⟩
  · rintro ⟨n, hfind, hbr⟩
    simp [getSceneCategory, hfind, hbr]
  · intro hnb
    have hb : ((graph.nodes.find? (fun m => m.id == nodeId)).bind
        (fun n => n.isBranch)).getD false = false := by
      cases hfind : graph.nodes.find? (fun m => m.id == nodeId) with
      | none => rfl
      | some n =>
        cases hbr : n.isBranch with
        | none => simp [hbr]
        | some b =>
          cases b with
          | false => simp [hbr]
          | true => exact absurd ⟨n, hfind, hbr⟩ hnb
    refine ⟨?_, ?_, ?_, ?_⟩
    · intro h1 h2
      simp [getSceneCategory, hb, hIn h1, hOut h2]
    · intro h1 h2
      simp [getSceneCategory, hb, hInNot h1, hOutNot h2]
    · intro h1 h2
      simp [getSceneCategory, hb, hInNot h1, hOut h2]
    · intro h1 h2
      simp [getSceneCategory, hb, hIn h1, hOutNot h2]
  · intro hfind h1 h2
    simp [getSceneCategory, hfind, hInNot h1, hOutNot h2]

/-- Witness for C3: a branch-flagged node classifies BRANCH, and an absent,
unreferenced id classifies FREE, on concrete graphs. -/
theorem getSceneCategory_cases_witness :
    getSceneCategory "b"
        (VNGraph.mk [⟨"b", "B", [], [], none, some true⟩]
          [⟨"e1", "x", "b", EdgeType.FLOW, none, none, none, none⟩] [] [])
      = SceneCategory.BRANCH
    ∧ getSceneCategory "nowhere"
        (VNGraph.mk [⟨"b", "B", [], [], none, some true⟩]
          [⟨"e1", "x", "b", EdgeType.FLOW, none, none, none, none⟩] [] [])
      = SceneCategory.FREE :=
  ⟨(getSceneCategory_cases "b" _).1
      ⟨⟨"b", "B", [], [], none, some true⟩, by decide, by decide⟩,
   (getSceneCategory_cases "nowhere" _).2.2 (by decide) (by decide) (by decide)⟩

/-! ## C7 -/

/-- First pool edge of the weight scenario `[10,10,80]`. -/
def poolEdge1 : VNEdge :=
  { id := "e1", source := "p", target := "a", type := EdgeType.FLOW, weight := some 10 }

/-- Second pool edge of the weight scenario `[10,10,80]`. -/
def poolEdge2 : VNEdge :=
  { id := "e2", source := "p", target := "b", type := EdgeType.FLOW, weight := some 10 }

/-- Third pool edge of the weight scenario `[10,10,80]`. -/
def poolEdge3 : VNEdge :=
  { id := "e3", source := "p", target := "c", type := EdgeType.FLOW, weight := some 80 }

/-- C7: in the weighted pool roll, an absent weight defaults to 10, and for
the three outgoing edges with weights `[10, 10, 80]` the linear scan selects
the first edge for draws in `[0,10)`, the second for `[10,20)` and the third
for `[20,100)`. -/
theorem performPoolRoll_selection :
    (∀ e : VNEdge, e.weight = none → Simulator.effWeight e = 10)
    ∧ (∀ r : ℚ, 0 ≤ r → r < 10 →
        Simulator.poolRollSelect [poolEdge1, poolEdge2, poolEdge3] r = some poolEdge1)
    ∧ (∀ r : ℚ, 10 ≤ r → r < 20 →
        Simulator.poolRollSelect [poolEdge1, poolEdge2, poolEdge3] r = some poolEdge2)
    ∧ (∀ r : ℚ, 20 ≤ r → r < 100 →
        Simulator.poolRollSelect [poolEdge1, poolEdge2, poolEdge3] r = some poolEdge3) := by
  have w1 : Simulator.effWeight poolEdge1 = 10 := by norm_num [Simulator.effWeight, poolEdge1]
  have w2 : Simulator.effWeight poolEdge2 = 10 := by norm_num [Simulator.effWeight, poolEdge2]
  have w3 : Simulator.effWeight poolEdge3 = 80 := by norm_num [Simulator.effWeight, poolEdge3]
  refine ⟨?_, ?_, ?_, ?_⟩
  · intro e h
    simp [Simulator.effWeight, h]
  · intro r h0 hlt
    simp only [Simulator.poolRollSelect, Simulator.scanSelect, w1]
    rw [if_pos hlt]
    rfl
  · intro r hge hlt
    have h1 : ¬ r < 10 := by linarith
    have h2 : r - 10 < 10 := by linarith
    simp only [Simulator.poolRollSelect, Simulator.scanSelect, w1, w2]
    rw [if_neg h1, if_pos h2]
    rfl
  · intro r hge hlt
    have h1 : ¬ r < 10 := by linarith
    have h2 : ¬ r - 10 < 10 := by linarith
    have h3 : r - 10 - 10 < 80 := by linarith
    simp only [Simulator.poolRollSelect, Simulator.scanSelect, w1, w2, w3]
    rw [if_neg h1, if_neg h2, if_pos h3]
    rfl

/-- Witness for C7 at the draw 25, which lies in the span of the third
edge. -/
theorem performPoolRoll_selection_witness :
    ((20 : ℚ) ≤ 25 ∧ (25 : ℚ) < 100)
    ∧ Simulator.poolRollSelect [poolEdge1, poolEdge2, poolEdge3] 25 = some poolEdge3 :=
  ⟨⟨by norm_num, by norm_num⟩,
   performPoolRoll_selection.2.2.2 25 (by norm_num) (by norm_num)⟩

/-! ## C5 -/

/-- C5: for every condition and every variable snapshot, if no variable in the
snapshot has the id of the condition, `evaluateCondition` returns false, for
every operator and every condition value. -/
theorem evaluateCondition_unknown_variable (cond : VNCondition) (vars : List VNVariable)
    (h : ∀ v ∈ vars, v.id ≠ cond.variableId) :
    StateEvaluator.evaluateCondition cond vars = false := by
  unfold StateEvaluator.evaluateCondition
  have hnone : vars.find? (fun v => v.id == cond.variableId) = none := by
    rw [List.find?_eq_none]
    intro v hv
    simpa using h v hv
  rw [hnone]

/-- Witness for C5 at a concrete snapshot that lacks the referenced id. -/
theorem evaluateCondition_unknown_variable_witness :
    (∀ v ∈ [(⟨"w", "other", VarKind.number, JSValue.num 0, JSValue.num 7⟩ : VNVariable)],
        v.id ≠ "ghost")
    ∧ StateEvaluator.evaluateCondition ⟨"ghost", CondOp.le, JSValue.num 3⟩
        [⟨"w", "other", VarKind.number, JSValue.num 0, JSValue.num 7⟩] = false :=
  ⟨by decide, evaluateCondition_unknown_variable _ _ (by decide)⟩

/-! ## C8 -/

/-- C8: selecting a transition whose target id is not found in the node
collection is a silent no-op — current node, variable snapshot and trace log
are all unchanged (and `handleNext` is a total function, so no error is
raised). -/
theorem handleNext_missing_target (graph : VNGraph) (targetId : String)
    (st : Simulator.SimState)
    (h : graph.nodes.find? (fun n => n.id == targetId) = none) :
    Simulator.handleNext graph targetId st = st := by
  unfold Simulator.handleNext
  rw [h]

/-- Witness for C8: a dangling edge target on a one-node graph. -/
theorem handleNext_missing_target_witness :
    (VNGraph.mk
        [⟨"a", "A", [], [], none, none⟩]
        [⟨"e1", "a", "zz", EdgeType.FLOW, none, none, none, none⟩]
        [] []).nodes.find? (fun n => n.id == "zz") = none
    ∧ Simulator.handleNext
        (VNGraph.mk
          [⟨"a", "A", [], [], none, none⟩]
          [⟨"e1", "a", "zz", EdgeType.FLOW, none, none, none, none⟩]
          [] [])
        "zz"
        ⟨some ⟨"a", "A", [], [], none, none⟩, [], ["Timeline initialized."]⟩
      = ⟨some ⟨"a", "A", [], [], none, none⟩, [], ["Timeline initialized."]⟩ :=
  ⟨by decide, handleNext_missing_target _ _ _ (by decide)⟩

/-! ## C9 -/

/-- C9: `applyEffects` is the left-to-right fold of `applyEffect` (each effect
sees the result of the previous one, so `add 5` then `add 3` on the same
numeric variable nets +8), and on the empty effect list it returns a
value-equal copy of the input variables.  (Reference inequality of the JS
copy is outside a value semantics; the copy is the `cloneVariables` spread.) -/
theorem applyEffects_is_foldl :
    (∀ (effects : List VNEffect) (vars : List VNVariable),
        StateEvaluator.applyEffects effects vars
          = effects.foldl (fun vs eff => StateEvaluator.applyEffect eff vs) vars)
    ∧ (∀ vars : List VNVariable, StateEvaluator.applyEffects [] vars = vars)
    ∧ StateEvaluator.applyEffects
        [⟨"v", EffOp.add, JSValue.num 5⟩, ⟨"v", EffOp.add, JSValue.num 3⟩]
        [⟨"v", "trust", VarKind.number, JSValue.num 0, JSValue.num 0⟩]
      = [⟨"v", "trust", VarKind.number, JSValue.num 0, JSValue.num 8⟩] := by
  refine ⟨?_, ?_, ?_⟩
  · intro effects vars
    unfold StateEvaluator.applyEffects
    rw [cloneVariables_eq_self]
  · intro vars
    unfold StateEvaluator.applyEffects
    rw [cloneVariables_eq_self]
    rfl
  · simp [StateEvaluator.applyEffects, StateEvaluator.applyEffect,
      StateEvaluator.cloneVariables, StateEvaluator.updateFirst,
      StateEvaluator.applyOperation, jsAdd, toNumber]
    norm_num

/-! ## Conflict pass lemmas (shared by the dead-end and contradiction claims) -/

theorem mem_unreachableConflicts_type {graph : VNGraph} {c : NarrativeConflict}
    (h : c ∈ StateAnalyzer.unreachableConflicts graph) :
    c.type = ConflictType.unreachable := by
  rcases List.mem_filterMap.mp h with ⟨n, hn, hfn⟩
  split at hfn
  · cases hfn
  · cases hfn
    rfl

theorem mem_deadEndConflicts_iff {graph : VNGraph} {c : NarrativeConflict} :
    c ∈ StateAnalyzer.deadEndConflicts graph
      ↔ ∃ n ∈ graph.nodes, StateAnalyzer.isDeadEnd graph n = true
          ∧ c = StateAnalyzer.deadEndConflictFor n := by
  unfold StateAnalyzer.deadEndConflicts
  rw [List.mem_filterMap]
  constructor
  · rintro ⟨n, hn, hfn⟩
    split at hfn
    case isTrue hd =>
      cases hfn
      exact ⟨n, hn, hd, rfl⟩
    case isFalse => cases hfn
  · rintro ⟨n, hn, hd, rfl⟩
    exact ⟨n, hn, by rw [if_pos hd]⟩

theorem mem_contradictionConflicts_shape {graph : VNGraph} {c : NarrativeConflict}
    (h : c ∈ StateAnalyzer.contradictionConflicts graph) :
    c.type = ConflictType.contradictory ∧ c.severity = Severity.error := by
  rcases List.mem_map.mp h with ⟨r, _, rfl⟩
  exact ⟨rfl, rfl⟩

theorem mem_edgeContradictionConflicts_shape {graph : VNGraph} {c : NarrativeConflict}
    (h : c ∈ StateAnalyzer.edgeContradictionConflicts graph) :
    c.type = ConflictType.contradictory ∧ c.severity = Severity.error
      ∧ ∃ s t, c.nodeIds = [s, t] := by
  rcases List.mem_map.mp h with ⟨r, _, rfl⟩
  exact ⟨rfl, rfl, _, _, rfl⟩

/-- The boolean dead-end test in propositional form. -/
theorem isDeadEnd_iff {graph : VNGraph} {n : VNNodeData} :
    StateAnalyzer.isDeadEnd graph n = true
      ↔ ((∀ e ∈ graph.edges, e.source ≠ n.id) ∧ (∃ e ∈ graph.edges, e.target = n.id)
          ∧ n.isPoolMember.getD false = false) := by
  unfold StateAnalyzer.isDeadEnd
  simp [List.any_eq_true, Bool.not_eq_true', List.any_eq_false, and_assoc]

/-! ## C2 -/

/-- C2: `detectConflicts` emits a warning dead-end conflict for node `n`
exactly when `n` has no outgoing edge, has at least one incoming edge, and is
not a pool member — so an isolated node is never flagged, while a terminal
node with an incoming edge is. -/
theorem detectConflicts_dead_end (graph : VNGraph) (n : VNNodeData)
    (hnodup : (graph.nodes.map (fun m => m.id)).Nodup) (hmem : n ∈ graph.nodes) :
    (∃ c ∈ StateAnalyzer.detectConflicts graph,
        c.type = ConflictType.dead_end ∧ c.severity = Severity.warning
          ∧ c.nodeIds = [n.id])
      ↔ ((∀ e ∈ graph.edges, e.source ≠ n.id) ∧ (∃ e ∈ graph.edges, e.target = n.id)
          ∧ n.isPoolMember.getD false = false) := by
  constructor
  · rintro ⟨c, hc, htype, hsev, hids⟩
    unfold StateAnalyzer.detectConflicts at hc
    rcases List.mem_append.mp hc with hc123 | hc4
    · rcases List.mem_append.mp hc123 with hc12 | hc3
      · rcases List.mem_append.mp hc12 with hc1 | hc2
        · rw [mem_unreachableConflicts_type hc1] at htype
          exact absurd htype (by decide)
        · rcases mem_deadEndConflicts_iff.mp hc2 with ⟨m, hm, hdead, rfl⟩
          have hid : m.id = n.id := by
            simpa [StateAnalyzer.deadEndConflictFor] using hids
          have hmn : m = n := List.inj_on_of_nodup_map hnodup hm hmem hid
          subst hmn
          exact isDeadEnd_iff.mp hdead
      · rw [(mem_contradictionConflicts_shape hc3).1] at htype
        exact absurd htype (by decide)
    · rw [(mem_edgeContradictionConflicts_shape hc4).1] at htype
      exact absurd htype (by decide)
  · rintro ⟨h1, h2, h3⟩
    refine ⟨StateAnalyzer.deadEndConflictFor n, ?_, rfl, rfl, rfl⟩
    unfold StateAnalyzer.detectConflicts
    have hmemd : StateAnalyzer.deadEndConflictFor n ∈ StateAnalyzer.deadEndConflicts graph :=
      mem_deadEndConflicts_iff.mpr ⟨n, hmem, isDeadEnd_iff.mpr ⟨h1, h2, h3⟩, rfl⟩
    exact List.mem_append.mpr
      (Or.inl (List.mem_append.mpr (Or.inl (List.mem_append.mpr (Or.inr hmemd)))))

/-- Witness for C2: a two-node chain flags its terminal node as a dead end. -/
theorem detectConflicts_dead_end_witness :
    (((VNGraph.mk
        [⟨"s", "S", [], [], none, none⟩, ⟨"t", "T", [], [], none, none⟩]
        [⟨"e1", "s", "t", EdgeType.FLOW, none, none, none, none⟩] [] []).nodes.map
          (fun m => m.id)).Nodup
      ∧ (⟨"t", "T", [], [], none, none⟩ : VNNodeData) ∈ (VNGraph.mk
        [⟨"s", "S", [], [], none, none⟩, ⟨"t", "T", [], [], none, none⟩]
        [⟨"e1", "s", "t", EdgeType.FLOW, none, none, none, none⟩] [] []).nodes)
    ∧ ∃ c ∈ StateAnalyzer.detectConflicts (VNGraph.mk
        [⟨"s", "S", [], [], none, none⟩, ⟨"t", "T", [], [], none, none⟩]
        [⟨"e1", "s", "t", EdgeType.FLOW, none, none, none, none⟩] [] []),
        c.type = ConflictType.dead_end ∧ c.severity = Severity.warning
          ∧ c.nodeIds = [(VNNodeData.mk "t" "T" [] [] none none).id] :=
  ⟨⟨by decide, by decide⟩,
   (detectConflicts_dead_end _ _ (by decide) (by decide)).mpr
     ⟨by decide, ⟨⟨"e1", "s", "t", EdgeType.FLOW, none, none, none, none⟩, by decide, by decide⟩,
      by decide⟩⟩

/-! ## Grouping lemmas for the contradiction check (C4) -/

theorem insertGrouped_sound {c : VNCondition} {acc : List (String × List VNCondition)}
    (h : ∀ p ∈ acc, ∀ x ∈ p.2, x.variableId = p.1) :
    ∀ p ∈ StateAnalyzer.insertGrouped c acc, ∀ x ∈ p.2, x.variableId = p.1 := by
  induction acc with
  | nil =>
    intro p hp x hx
    simp only [StateAnalyzer.insertGrouped] at hp
    rcases List.mem_singleton.mp hp with rfl
    rcases List.mem_singleton.mp hx with rfl
    rfl
  | cons hd tl ih =>
    obtain ⟨k, cs⟩ := hd
    intro p hp x hx
    simp only [StateAnalyzer.insertGrouped] at hp
    split at hp
    case isTrue hk =>
      rcases List.mem_cons.mp hp with heq | hptl
      · subst heq
        rcases List.mem_append.mp hx with hxc | hxc
        · exact h (k, cs) (List.mem_cons_self _ _) x hxc
        · rcases List.mem_singleton.mp hxc with rfl
          exact hk.symm
      · exact h p (List.mem_cons_of_mem _ hptl) x hx
    case isFalse hk =>
      rcases List.mem_cons.mp hp with heq | hptl
      · subst heq
        exact h (k, cs) (List.mem_cons_self _ _) x hx
      · exact ih (fun q hq => h q (List.mem_cons_of_mem _ hq)) p hptl x hx

theorem insertGrouped_keys_sub {c : VNCondition} {acc : List (String × List VNCondition)} :
    ∀ x ∈ (StateAnalyzer.insertGrouped c acc).map Prod.fst,
      x ∈ acc.map Prod.fst ∨ x = c.variableId := by
  induction acc with
  | nil =>
    intro x hx
    simp only [StateAnalyzer.insertGrouped, List.map_cons, List.map_nil] at hx
    rcases List.mem_singleton.mp hx with rfl
    exact Or.inr rfl
  | cons hd tl ih =>
    obtain ⟨k, cs⟩ := hd
    intro x hx
    simp only [StateAnalyzer.insertGrouped] at hx
    split at hx
    case isTrue hk =>
      rcases List.mem_map.mp hx with ⟨p, hp, rfl⟩
      rcases List.mem_cons.mp hp with rfl | hptl
      · exact Or.inl (by simp)
      · exact Or.inl (by simp [List.mem_map.mpr ⟨p, hptl, rfl⟩])
    case isFalse hk =>
      rcases List.mem_map.mp hx with ⟨p, hp, rfl⟩
      rcases List.mem_cons.mp hp with rfl | hptl
      · exact Or.inl (by simp)
      · rcases ih p.1 (List.mem_map.mpr ⟨p, hptl, rfl⟩) with h1 | h1
        · exact Or.inl (by simp [h1])
        · exact Or.inr h1

theorem insertGrouped_keys_nodup {c : VNCondition} {acc : List (String × List VNCondition)}
    (h : (acc.map Prod.fst).Nodup) :
    ((StateAnalyzer.insertGrouped c acc).map Prod.fst).Nodup := by
  induction acc with
  | nil => simp [StateAnalyzer.insertGrouped]
  | cons hd tl ih =>
    obtain ⟨k, cs⟩ := hd
    rw [List.map_cons, List.nodup_cons] at h
    simp only [StateAnalyzer.insertGrouped]
    split
    case isTrue hk =>
      rw [List.map_cons, List.nodup_cons]
      exact ⟨h.1, h.2⟩
    case isFalse hk =>
      rw [List.map_cons, List.nodup_cons]
      refine ⟨?_, ih h.2⟩
      intro hkin
      rcases insertGrouped_keys_sub _ hkin with h1 | h1
      · exact h.1 h1
      · exact hk h1

theorem insertGrouped_self {c : VNCondition} {acc : List (String × List VNCondition)} :
    ∃ cs, (c.variableId, cs) ∈ StateAnalyzer.insertGrouped c acc ∧ c ∈ cs := by
  induction acc with
  | nil => exact ⟨[c], by simp [StateAnalyzer.insertGrouped], by simp⟩
  | cons hd tl ih =>
    obtain ⟨k, cs⟩ := hd
    simp only [StateAnalyzer.insertGrouped]
    split
    case isTrue hk =>
      exact ⟨cs ++ [c], by rw [← hk]; exact List.mem_cons_self _ _, by simp⟩
    case isFalse hk =>
      obtain ⟨cs', h1, h2⟩ := ih
      exact ⟨cs', List.mem_cons_of_mem _ h1, h2⟩

theorem insertGrouped_preserve {c : VNCondition} {acc : List (String × List VNCondition)}
    {x : String} {cs : List VNCondition} (h : (x, cs) ∈ acc) :
    ∃ cs', (x, cs') ∈ StateAnalyzer.insertGrouped c acc ∧ ∀ y ∈ cs, y ∈ cs' := by
  induction acc with
  | nil => cases h
  | cons hd tl ih =>
    obtain ⟨k, kcs⟩ := hd
    simp only [StateAnalyzer.insertGrouped]
    split
    case isTrue hk =>
      rcases List.mem_cons.mp h with heq | htl
      · cases heq
        exact ⟨cs ++ [c], List.mem_cons_self _ _, fun y hy => List.mem_append_left _ hy⟩
      · exact ⟨cs, List.mem_cons_of_mem _ htl, fun y hy => hy⟩
    case isFalse hk =>
      rcases List.mem_cons.mp h with heq | htl
      · cases heq
        exact ⟨cs, List.mem_cons_self _ _, fun y hy => hy⟩
      · obtain ⟨cs', h1, h2⟩ := ih htl
        exact ⟨cs', List.mem_cons_of_mem _ h1, h2⟩

theorem groupByVariable_sound (conds : List VNCondition) :
    ∀ p ∈ StateAnalyzer.groupByVariable conds, ∀ x ∈ p.2, x.variableId = p.1 := by
  unfold StateAnalyzer.groupByVariable
  suffices h : ∀ (l : List VNCondition) (acc : List (String × List VNCondition)),
      (∀ p ∈ acc, ∀ x ∈ p.2, x.variableId = p.1) →
      ∀ p ∈ l.foldl (fun a c => StateAnalyzer.insertGrouped c a) acc, ∀ x ∈ p.2,
        x.variableId = p.1 by
    exact h conds [] (by intro p hp; cases hp)
  intro l
  induction l with
  | nil => intro acc h; simpa using h
  | cons d rest ih => exact fun acc h => ih _ (insertGrouped_sound h)

theorem groupByVariable_keys_nodup (conds : List VNCondition) :
    ((StateAnalyzer.groupByVariable conds).map Prod.fst).Nodup := by
  unfold StateAnalyzer.groupByVariable
  suffices h : ∀ (l : List VNCondition) (acc : List (String × List VNCondition)),
      (acc.map Prod.fst).Nodup →
      ((l.foldl (fun a c => StateAnalyzer.insertGrouped c a) acc).map Prod.fst).Nodup by
    exact h conds [] (by simp)
  intro l
  induction l with
  | nil => intro acc h; simpa using h
  | cons d rest ih =>
    exact fun acc h => ih _ (insertGrouped_keys_nodup h)

theorem groupByVariable_complete {conds : List VNCondition} {c : VNCondition} (h : c ∈ conds) :
    ∃ cs, (c.variableId, cs) ∈ StateAnalyzer.groupByVariable conds ∧ c ∈ cs := by
  unfold StateAnalyzer.groupByVariable
  suffices hgen : ∀ (l : List VNCondition) (acc : List (String × List VNCondition)),
      (c ∈ l ∨ ∃ cs, (c.variableId, cs) ∈ acc ∧ c ∈ cs) →
      ∃ cs, (c.variableId, cs) ∈ l.foldl (fun a x => StateAnalyzer.insertGrouped x a) acc
        ∧ c ∈ cs by
    exact hgen conds [] (Or.inl h)
  intro l
  induction l with
  | nil =>
    rintro acc (hl | hl)
    · cases hl
    · simpa using hl
  | cons d rest ih =>
    rintro acc (hc | ⟨cs, hacc, hccs⟩)
    · rcases List.mem_cons.mp hc with rfl | hcr
      · exact ih _ (Or.inr insertGrouped_self)
      · exact ih _ (Or.inl hcr)
    · obtain ⟨cs', h1, h2⟩ := insertGrouped_preserve hacc
      exact ih _ (Or.inr ⟨cs', h1, h2 _ hccs⟩)

theorem groupByVariable_unique {conds : List VNCondition} {k : String}
    {cs1 cs2 : List VNCondition}
    (h1 : (k, cs1) ∈ StateAnalyzer.groupByVariable conds)
    (h2 : (k, cs2) ∈ StateAnalyzer.groupByVariable conds) : cs1 = cs2 :=
  congrArg Prod.snd
    (List.inj_on_of_nodup_map (groupByVariable_keys_nodup conds) h1 h2 rfl)

/-! ## Pairwise-scan and counting lemmas for C4 -/

theorem strictEq_true_symm {a b : JSValue} (h : strictEq a b = true) : strictEq b a = true := by
  cases a <;> cases b <;> simp_all [strictEq]

theorem areContr_of_eq_ne {c1 c2 : VNCondition}
    (hvar : c1.variableId = c2.variableId)
    (hstrict : strictEq c1.value c2.value = true)
    (hops : (c1.operator = CondOp.eq ∧ c2.operator = CondOp.ne)
      ∨ (c1.operator = CondOp.ne ∧ c2.operator = CondOp.eq)) :
    StateAnalyzer.areConditionsContradictory c1 c2 = true := by
  unfold StateAnalyzer.areConditionsContradictory
  rcases hops with ⟨h1, h2⟩ | ⟨h1, h2⟩ <;> simp [hvar, hstrict, h1, h2]

theorem pairContradictionMessages_ne_nil (varId : String) {x y : VNCondition} (hne : x ≠ y)
    (hxy : StateAnalyzer.areConditionsContradictory x y = true)
    (hyx : StateAnalyzer.areConditionsContradictory y x = true) :
    ∀ {l : List VNCondition}, x ∈ l → y ∈ l →
      StateAnalyzer.pairContradictionMessages varId l ≠ [] := by
  intro l
  induction l with
  | nil => intro hx; cases hx
  | cons c rest ih =>
    intro hx hy
    have heq : StateAnalyzer.pairContradictionMessages varId (c :: rest)
        = (rest.filterMap (fun c2 =>
            if StateAnalyzer.areConditionsContradictory c c2 then
              some (StateAnalyzer.condPairMessage varId c c2) else none))
          ++ StateAnalyzer.pairContradictionMessages varId rest := rfl
    rw [heq]
    rcases List.mem_cons.mp hx with hxc | hx'
    · have hxy' : StateAnalyzer.areConditionsContradictory c y = true := hxc ▸ hxy
      have hy' : y ∈ rest := by
        rcases List.mem_cons.mp hy with hyc | h
        · exact absurd (hxc.trans hyc.symm) hne
        · exact h
      intro habs
      obtain ⟨h1, _⟩ := List.append_eq_nil.mp habs
      have hmem : StateAnalyzer.condPairMessage varId c y ∈ rest.filterMap (fun c2 =>
          if StateAnalyzer.areConditionsContradictory c c2 then
            some (StateAnalyzer.condPairMessage varId c c2) else none) :=
        List.mem_filterMap.mpr ⟨y, hy', by rw [if_pos hxy']⟩
      rw [h1] at hmem
      cases hmem
    · rcases List.mem_cons.mp hy with hyc | hy'
      · have hyx' : StateAnalyzer.areConditionsContradictory c x = true := hyc ▸ hyx
        intro habs
        obtain ⟨h1, _⟩ := List.append_eq_nil.mp habs
        have hmem : StateAnalyzer.condPairMessage varId c x ∈ rest.filterMap (fun c2 =>
            if StateAnalyzer.areConditionsContradictory c c2 then
              some (StateAnalyzer.condPairMessage varId c c2) else none) :=
          List.mem_filterMap.mpr ⟨x, hx', by rw [if_pos hyx']⟩
        rw [h1] at hmem
        cases hmem
      · intro habs
        obtain ⟨_, h2⟩ := List.append_eq_nil.mp habs
        exact ih hx' hy' h2

theorem contradictionMessages_ne_nil {conds : List VNCondition} {c1 c2 : VNCondition}
    (h1 : c1 ∈ conds) (h2 : c2 ∈ conds) (hne : c1 ≠ c2)
    (hvar : c1.variableId = c2.variableId)
    (h12 : StateAnalyzer.areConditionsContradictory c1 c2 = true)
    (h21 : StateAnalyzer.areConditionsContradictory c2 c1 = true) :
    StateAnalyzer.contradictionMessages conds ≠ [] := by
  obtain ⟨cs1, hcs1, hc1⟩ := groupByVariable_complete h1
  obtain ⟨cs2, hcs2, hc2⟩ := groupByVariable_complete h2
  rw [hvar] at hcs1
  have hcs : cs1 = cs2 := groupByVariable_unique hcs1 hcs2
  subst hcs
  have hlen : 2 ≤ cs1.length := by
    rcases cs1 with _ | ⟨a, _ | ⟨b, t⟩⟩
    · cases hc1
    · rcases List.mem_singleton.mp hc1 with rfl
      rcases List.mem_singleton.mp hc2 with rfl
      exact absurd rfl hne
    · simp only [List.length_cons]
      omega
  obtain ⟨m, hm⟩ := List.exists_mem_of_ne_nil _
    (pairContradictionMessages_ne_nil c2.variableId hne h12 h21 hc1 hc2)
  apply List.ne_nil_of_mem (a := m)
  unfold StateAnalyzer.contradictionMessages
  apply List.mem_flatten.mpr
  refine ⟨StateAnalyzer.pairContradictionMessages c2.variableId cs1, ?_, hm⟩
  apply List.mem_map.mpr
  exact ⟨(c2.variableId, cs1), hcs1, by rw [if_pos hlen]⟩

theorem countP_filterMap' {α β : Type _} (f : α → Option β) (p : β → Bool) (l : List α) :
    (l.filterMap f).countP p = l.countP (fun a => ((f a).map p).getD false) := by
  induction l with
  | nil => rfl
  | cons a t ih =>
    cases hfa : f a with
    | none =>
      rw [List.filterMap_cons_none hfa, List.countP_cons, ih]
      simp [hfa]
    | some b =>
      rw [List.filterMap_cons_some hfa, List.countP_cons, List.countP_cons, ih]
      simp [hfa]

theorem countP_id_and_eq_one {l : List VNNodeData} {n : VNNodeData} {q : VNNodeData → Bool}
    (hnodup : (l.map (fun m => m.id)).Nodup) (hmem : n ∈ l) (hq : q n = true) :
    l.countP (fun m => decide (m.id = n.id) && q m) = 1 := by
  induction l with
  | nil => cases hmem
  | cons h t ih =>
    rw [List.map_cons, List.nodup_cons] at hnodup
    rw [List.countP_cons]
    rcases List.mem_cons.mp hmem with heq | hmt
    · have hzero : t.countP (fun m => decide (m.id = n.id) && q m) = 0 := by
        rw [List.countP_eq_zero]
        intro m hm
        simp only [Bool.and_eq_true, decide_eq_true_eq, not_and]
        intro hid _
        rw [heq] at hid
        refine absurd ?_ hnodup.1
        rw [← hid]
        exact List.mem_map_of_mem (fun m => m.id) hm
      rw [hzero]
      rw [← heq]
      simp [hq]
    · have hne' : ¬(h.id = n.id) := by
        intro he
        refine absurd ?_ hnodup.1
        rw [he]
        exact List.mem_map_of_mem (fun m => m.id) hmt
      have hd : decide (h.id = n.id) = false := decide_eq_false hne'
      rw [ih hnodup.2 hmt]
      simp [hd]

/-! ## C4 -/

/-- C4: a node whose own preconditions contain a pair on the same variable with
the same (strictly identical) literal value, one `==` and one `!=`, yields
exactly one contradictory conflict whose `nodeIds` is that node (and every
contradictory conflict carries severity error); and a numeric pair with
ordering operators is flagged exactly when it matches one of the patterns
`(>,<)`, `(<,>)`, `(>=,<)`, `(<,>=)` whose thresholds make the satisfying set
of rationals empty. -/
theorem detectConflicts_contradictory_preconditions :
    (∀ (graph : VNGraph) (n : VNNodeData) (c1 c2 : VNCondition),
        (graph.nodes.map (fun m => m.id)).Nodup → n ∈ graph.nodes →
        c1 ∈ n.preconditions → c2 ∈ n.preconditions →
        c1.variableId = c2.variableId → strictEq c1.value c2.value = true →
        ((c1.operator = CondOp.eq ∧ c2.operator = CondOp.ne)
          ∨ (c1.operator = CondOp.ne ∧ c2.operator = CondOp.eq)) →
        ((StateAnalyzer.detectConflicts graph).countP
            (fun c => decide (c.type = ConflictType.contradictory)
              && decide (c.nodeIds = [n.id])) = 1
          ∧ ∀ c ∈ StateAnalyzer.detectConflicts graph,
              c.type = ConflictType.contradictory → c.severity = Severity.error))
    ∧ (∀ (c1 c2 : VNCondition) (a b : ℚ),
        c1.variableId = c2.variableId →
        c1.value = JSValue.num a → c2.value = JSValue.num b →
        (c1.operator = CondOp.gt ∨ c1.operator = CondOp.lt
          ∨ c1.operator = CondOp.ge ∨ c1.operator = CondOp.le) →
        (c2.operator = CondOp.gt ∨ c2.operator = CondOp.lt
          ∨ c2.operator = CondOp.ge ∨ c2.operator = CondOp.le) →
        (StateAnalyzer.areConditionsContradictory c1 c2 = true ↔
          ((c1.operator = CondOp.gt ∧ c2.operator = CondOp.lt ∧ ¬∃ x : ℚ, a < x ∧ x < b)
            ∨ (c1.operator = CondOp.lt ∧ c2.operator = CondOp.gt ∧ ¬∃ x : ℚ, x < a ∧ b < x)
            ∨ (c1.operator = CondOp.ge ∧ c2.operator = CondOp.lt ∧ ¬∃ x : ℚ, a ≤ x ∧ x < b)
            ∨ (c1.operator = CondOp.lt ∧ c2.operator = CondOp.ge
                ∧ ¬∃ x : ℚ, x < a ∧ b ≤ x)))) := by
  constructor
  · intro graph n c1 c2 hnodup hmem hc1 hc2 hvar hstrict hops
    have hne : c1 ≠ c2 := by
      rcases hops with ⟨h1, h2⟩ | ⟨h1, h2⟩ <;> intro he <;> rw [he, h2] at h1 <;> cases h1
    have h12 := areContr_of_eq_ne hvar hstrict hops
    have h21 := areContr_of_eq_ne hvar.symm (strictEq_true_symm hstrict) (by tauto)
    have hmsgs := contradictionMessages_ne_nil hc1 hc2 hne hvar h12 h21
    constructor
    · unfold StateAnalyzer.detectConflicts
      rw [List.countP_append, List.countP_append, List.countP_append]
      have z1 : (StateAnalyzer.unreachableConflicts graph).countP
          (fun c => decide (c.type = ConflictType.contradictory)
            && decide (c.nodeIds = [n.id])) = 0 := by
        rw [List.countP_eq_zero]
        intro c hc
        have ht := mem_unreachableConflicts_type hc
        simp [ht]
      have z2 : (StateAnalyzer.deadEndConflicts graph).countP
          (fun c => decide (c.type = ConflictType.contradictory)
            && decide (c.nodeIds = [n.id])) = 0 := by
        rw [List.countP_eq_zero]
        intro c hc
        rcases mem_deadEndConflicts_iff.mp hc with ⟨m, _, _, rfl⟩
        simp [StateAnalyzer.deadEndConflictFor]
      have z4 : (StateAnalyzer.edgeContradictionConflicts graph).countP
          (fun c => decide (c.type = ConflictType.contradictory)
            && decide (c.nodeIds = [n.id])) = 0 := by
        rw [List.countP_eq_zero]
        intro c hc
        obtain ⟨_, _, s, t, hst⟩ := mem_edgeContradictionConflicts_shape hc
        simp [hst]
      have z3 : (StateAnalyzer.contradictionConflicts graph).countP
          (fun c => decide (c.type = ConflictType.contradictory)
            && decide (c.nodeIds = [n.id])) = 1 := by
        unfold StateAnalyzer.contradictionConflicts StateAnalyzer.findContradictoryPreconditions
        rw [List.countP_map, countP_filterMap']
        have hcong : ∀ m ∈ graph.nodes,
            ((((fun node =>
                if (StateAnalyzer.contradictionMessages node.preconditions).isEmpty then none
                else some (node.id, StateAnalyzer.contradictionMessages node.preconditions)) m).map
              ((fun c => decide (c.type = ConflictType.contradictory)
                  && decide (c.nodeIds = [n.id]))
                ∘ StateAnalyzer.contradictionConflictFor graph)).getD false) = true
            ↔ (decide (m.id = n.id)
                && !(StateAnalyzer.contradictionMessages m.preconditions).isEmpty) = true := by
          intro m hm
          by_cases he : (StateAnalyzer.contradictionMessages m.preconditions).isEmpty
          · simp [he]
          · by_cases hid : m.id = n.id <;>
              simp [he, hid, StateAnalyzer.contradictionConflictFor]
        rw [List.countP_congr hcong]
        refine countP_id_and_eq_one hnodup hmem ?_
        simp only [Bool.not_eq_true', List.isEmpty_eq_false]
        exact hmsgs
      rw [z1, z2, z3, z4]
    · intro c hc htype
      unfold StateAnalyzer.detectConflicts at hc
      rcases List.mem_append.mp hc with hc123 | hc4
      · rcases List.mem_append.mp hc123 with hc12 | hc3
        · rcases List.mem_append.mp hc12 with hcu | hcd
          · rw [mem_unreachableConflicts_type hcu] at htype
            exact absurd htype (by decide)
          · rcases mem_deadEndConflicts_iff.mp hcd with ⟨m, _, _, rfl⟩
            exact absurd htype (by simp [StateAnalyzer.deadEndConflictFor])
        · exact (mem_contradictionConflicts_shape hc3).2
      · exact (mem_edgeContradictionConflicts_shape hc4).2.1
  · intro c1 c2 a b hvar hv1 hv2 ho1 ho2
    obtain ⟨v1, o1, val1⟩ := c1
    obtain ⟨v2, o2, val2⟩ := c2
    simp only at hvar hv1 hv2 ho1 ho2 ⊢
    subst hv1
    subst hv2
    subst hvar
    have e1 : (¬∃ x : ℚ, a < x ∧ x < b) ↔ b ≤ a := by
      constructor
      · intro h
        by_contra hab
        push_neg at hab
        obtain ⟨x, hx1, hx2⟩ := exists_between hab
        exact h ⟨x, hx1, hx2⟩
      · rintro hba ⟨x, hx1, hx2⟩
        linarith
    have e2 : (¬∃ x : ℚ, x < a ∧ b < x) ↔ a ≤ b := by
      constructor
      · intro h
        by_contra hab
        push_neg at hab
        obtain ⟨x, hx1, hx2⟩ := exists_between hab
        exact h ⟨x, hx2, hx1⟩
      · rintro hab ⟨x, hx1, hx2⟩
        linarith
    have e3 : (¬∃ x : ℚ, a ≤ x ∧ x < b) ↔ b ≤ a := by
      constructor
      · intro h
        by_contra hab
        push_neg at hab
        exact h ⟨a, le_refl a, hab⟩
      · rintro hba ⟨x, hx1, hx2⟩
        linarith
    have e4 : (¬∃ x : ℚ, x < a ∧ b ≤ x) ↔ a ≤ b := by
      constructor
      · intro h
        by_contra hab
        push_neg at hab
        exact h ⟨b, hab, le_refl b⟩
      · rintro hab ⟨x, hx1, hx2⟩
        linarith
    rcases ho1 with rfl | rfl | rfl | rfl <;> rcases ho2 with rfl | rfl | rfl | rfl <;>
      simp [StateAnalyzer.areConditionsContradictory, strictEq, e1, e2, e3, e4, ge_iff_le]

/-- Witness for C4: scenario B — one node with preconditions `v == 5` and
`v != 5` produces exactly one node-level contradictory conflict. -/
theorem detectConflicts_contradictory_preconditions_witness :
    ((⟨"v", CondOp.eq, JSValue.num 5⟩ : VNCondition) ∈
        (VNNodeData.mk "M" "M"
          [⟨"v", CondOp.eq, JSValue.num 5⟩, ⟨"v", CondOp.ne, JSValue.num 5⟩]
          [] none none).preconditions
      ∧ strictEq (JSValue.num 5) (JSValue.num 5) = true)
    ∧ (StateAnalyzer.detectConflicts
        (VNGraph.mk
          [VNNodeData.mk "M" "M"
            [⟨"v", CondOp.eq, JSValue.num 5⟩, ⟨"v", CondOp.ne, JSValue.num 5⟩]
            [] none none]
          [] [] [])).countP
        (fun c => decide (c.type = ConflictType.contradictory)
          && decide (c.nodeIds = ["M"])) = 1 :=
  ⟨⟨by decide, by decide⟩,
   (detectConflicts_contradictory_preconditions.1
      (VNGraph.mk
        [VNNodeData.mk "M" "M"
          [⟨"v", CondOp.eq, JSValue.num 5⟩, ⟨"v", CondOp.ne, JSValue.num 5⟩]
          [] none none]
        [] [] [])
      (VNNodeData.mk "M" "M"
        [⟨"v", CondOp.eq, JSValue.num 5⟩, ⟨"v", CondOp.ne, JSValue.num 5⟩]
        [] none none)
      ⟨"v", CondOp.eq, JSValue.num 5⟩ ⟨"v", CondOp.ne, JSValue.num 5⟩
      (by decide) (by decide) (by decide) (by decide) rfl (by decide)
      (Or.inl ⟨rfl, rfl⟩)).1⟩

/-! ## C6 -/

/-- If the target sits at position `i` of the queue and there is fuel for at
least `i + 1` dequeues, the BFS loop answers true: every iteration either
answers, or pops the head while only appending to the back, so the target
moves one position closer to the front. -/
theorem bfsLoop_of_getElem (target : String) (graph : VNGraph) :
    ∀ (fuel : Nat) (q visited : List String) (i : Nat),
      q[i]? = some target → i < fuel →
      StateAnalyzer.bfsLoop target graph fuel q visited = true := by
  intro fuel
  induction fuel with
  | zero =>
    intro q visited i hq hi
    omega
  | succ f ih =>
    intro q visited i hq hi
    cases q with
    | nil => simp at hq
    | cons c rest =>
      by_cases hc : c = target
      · simp only [StateAnalyzer.bfsLoop]
        rw [if_pos hc]
      · have hi0 : i ≠ 0 := by
          intro h
          subst h
          simp only [List.getElem?_cons_zero, Option.some.injEq] at hq
          exact hc hq
        obtain ⟨i', rfl⟩ : ∃ i', i = i' + 1 := ⟨i - 1, by omega⟩
        have hq' : rest[i']? = some target := by simpa using hq
        have hlen : i' < rest.length := (List.getElem?_eq_some.mp hq').1
        simp only [StateAnalyzer.bfsLoop]
        rw [if_neg hc]
        by_cases hv : c ∈ visited
        · rw [if_pos hv]
          exact ih rest visited i' hq' (by omega)
        · rw [if_neg hv]
          refine ih _ _ i' ?_ (by omega)
          rw [List.getElem?_append_left hlen]
          exact hq'

/-- C6: every root node (a node of the graph with no incoming edge) is
reachable — the BFS starts from the set of all root nodes (with the
first-node fallback only used when no root exists), so the root is already in
the initial queue. -/
theorem isNodeReachable_root (graph : VNGraph) (r : VNNodeData)
    (hmem : r ∈ graph.nodes) (hroot : ∀ e ∈ graph.edges, e.target ≠ r.id) :
    StateAnalyzer.isNodeReachable r.id graph = true := by
  unfold StateAnalyzer.isNodeReachable
  have hrs : r ∈ graph.nodes.filter (fun n => !(graph.edges.any (fun e => e.target == n.id))) := by
    rw [List.mem_filter]
    refine ⟨hmem, ?_⟩
    simp only [Bool.not_eq_eq_eq_not, Bool.not_true, List.any_eq_false]
    intro e he
    simpa using hroot e he
  have hne : (graph.nodes.filter
      (fun n => !(graph.edges.any (fun e => e.target == n.id)))).isEmpty = false := by
    rcases hl : graph.nodes.filter (fun n => !(graph.edges.any (fun e => e.target == n.id))) with
      _ | ⟨x, xs⟩
    · rw [hl] at hrs
      cases hrs
    · rw [hl]
      rfl
  simp only [hne, Bool.false_eq_true, if_false]
  have hmemq : r.id ∈ (graph.nodes.filter
      (fun n => !(graph.edges.any (fun e => e.target == n.id)))).map (fun n => n.id) :=
    List.mem_map_of_mem _ hrs
  obtain ⟨⟨i, hilen⟩, hi⟩ := List.get_of_mem hmemq
  have hq : ((graph.nodes.filter
      (fun n => !(graph.edges.any (fun e => e.target == n.id)))).map
        (fun n => n.id))[i]? = some r.id := by
    rw [List.getElem?_eq_getElem hilen]
    exact congrArg some hi
  apply bfsLoop_of_getElem r.id graph (StateAnalyzer.bfsFuel graph) _ [] i hq
  have h1 : i < ((graph.nodes.filter
      (fun n => !(graph.edges.any (fun e => e.target == n.id)))).map
        (fun n => n.id)).length := hilen
  rw [List.length_map] at h1
  have h2 : (graph.nodes.filter
      (fun n => !(graph.edges.any (fun e => e.target == n.id)))).length
        ≤ graph.nodes.length := List.length_filter_le _ _
  unfold StateAnalyzer.bfsFuel
  omega

/-- Witness for C6: the root of a two-node chain is reachable. -/
theorem isNodeReachable_root_witness :
    ((⟨"a", "A", [], [], none, none⟩ : VNNodeData) ∈
        (VNGraph.mk
          [⟨"a", "A", [], [], none, none⟩, ⟨"b", "B", [], [], none, none⟩]
          [⟨"e1", "a", "b", EdgeType.FLOW, none, none, none, none⟩] [] []).nodes
      ∧ ∀ e ∈ (VNGraph.mk
          [⟨"a", "A", [], [], none, none⟩, ⟨"b", "B", [], [], none, none⟩]
          [⟨"e1", "a", "b", EdgeType.FLOW, none, none, none, none⟩] [] []).edges,
          e.target ≠ "a")
    ∧ StateAnalyzer.isNodeReachable
        (VNNodeData.mk "a" "A" [] [] none none).id
        (VNGraph.mk
          [⟨"a", "A", [], [], none, none⟩, ⟨"b", "B", [], [], none, none⟩]
          [⟨"e1", "a", "b", EdgeType.FLOW, none, none, none, none⟩] [] []) = true :=
  ⟨⟨by decide, by decide⟩,
   isNodeReachable_root _ _ (by decide) (by decide)⟩

/-! ## C1 -/

/-- Source node of the C1 scenario. -/
def c1NodeA : VNNodeData := { id := "a", label := "A", preconditions := [], effects := [] }

/-- Target node of the C1 scenario; its precondition references a variable id
that is absent from the snapshot. -/
def c1NodeB : VNNodeData :=
  { id := "b", label := "B", preconditions := [⟨"ghost", CondOp.eq, JSValue.num 0⟩]
    effects := [] }

/-- The edge of the C1 scenario. -/
def c1Edge : VNEdge := { id := "e1", source := "a", target := "b", type := EdgeType.FLOW }

/-- The graph of the C1 scenario, simulated with an empty variable
snapshot. -/
def c1Graph : VNGraph := { nodes := [c1NodeA, c1NodeB], edges := [c1Edge], vars := [] }

/-- Counterexample to C1 as stated: the simulator offers the edge `a → b`
although the precondition of `b` references a variable absent from the
snapshot, which under the State Evaluator semantics evaluates to false — so
the edge would have to be illegal. -/
theorem availableConnections_counterexample :
    (c1Edge, some c1NodeB) ∈ Simulator.availableConnections c1Graph "a" []
    ∧ StateEvaluator.evaluateConditions c1NodeB.preconditions [] = false := by
  constructor
  · decide
  · decide

/-- C1 (amended): the simulator offers an edge with source `n` exactly when
the target exists in the node collection and all target preconditions pass the
simulator's inline check; that check agrees with
`StateEvaluator.evaluateCondition` whenever the referenced variable exists in
the snapshot, but evaluates to `true` (leaving the edge legal) when the
variable id is absent. -/
theorem availableConnections_spec :
    (∀ (graph : VNGraph) (currentId : String) (simVariables : List VNVariable)
        (e : VNEdge) (t : VNNodeData),
        ((e, some t) ∈ Simulator.availableConnections graph currentId simVariables
          ↔ e ∈ graph.edges ∧ e.source = currentId
            ∧ graph.nodes.find? (fun n => n.id == e.target) = some t
            ∧ t.preconditions.all
                (fun cond => Simulator.evalPrecondition cond simVariables) = true))
    ∧ (∀ (cond : VNCondition) (simVariables : List VNVariable),
        (∃ v ∈ simVariables, v.id = cond.variableId) →
          Simulator.evalPrecondition cond simVariables
            = StateEvaluator.evaluateCondition cond simVariables)
    ∧ (∀ (cond : VNCondition) (simVariables : List VNVariable),
        (∀ v ∈ simVariables, v.id ≠ cond.variableId) →
          Simulator.evalPrecondition cond simVariables = true) := by
  refine ⟨?_, ?_, ?_⟩
  · intro graph currentId simVariables e t
    unfold Simulator.availableConnections
    rw [List.mem_filter, List.mem_map]
    constructor
    · rintro ⟨⟨a, ha, hfa⟩, hpred⟩
      rw [List.mem_filter] at ha
      obtain ⟨ha1, ha2⟩ := ha
      have h1 : a = e := congrArg Prod.fst hfa
      subst h1
      have h2 : graph.nodes.find? (fun n => n.id == a.target) = some t :=
        congrArg Prod.snd hfa
      refine ⟨ha1, by simpa using ha2, h2, by simpa using hpred⟩
    · rintro ⟨hel, hsrc, hfind, hall⟩
      refine ⟨⟨e, ?_, ?_⟩, ?_⟩
      · rw [List.mem_filter]
        exact ⟨hel, by simpa using hsrc⟩
      · rw [hfind]
      · simpa using hall
  · rintro cond simVariables ⟨v, hv, hid⟩
    have hsome : (simVariables.find? (fun x => x.id == cond.variableId)).isSome := by
      rw [List.find?_isSome]
      exact ⟨v, hv, by simpa using hid⟩
    obtain ⟨w, hw⟩ := Option.isSome_iff_exists.mp hsome
    unfold Simulator.evalPrecondition StateEvaluator.evaluateCondition
    rw [hw]
  · intro cond simVariables h
    have hnone : simVariables.find? (fun x => x.id == cond.variableId) = none := by
      rw [List.find?_eq_none]
      intro v hv
      simpa using h v hv
    unfold Simulator.evalPrecondition
    rw [hnone]

/-- Witness for C1 (amended) on the concrete C1 scenario. -/
theorem availableConnections_spec_witness :
    (c1Edge ∈ c1Graph.edges ∧ c1Edge.source = "a"
      ∧ c1Graph.nodes.find? (fun n => n.id == c1Edge.target) = some c1NodeB
      ∧ c1NodeB.preconditions.all (fun cond => Simulator.evalPrecondition cond []) = true)
    ∧ (c1Edge, some c1NodeB) ∈ Simulator.availableConnections c1Graph "a" [] :=
  ⟨⟨by decide, by decide, by decide, by decide⟩,
   (availableConnections_spec.1 c1Graph "a" [] c1Edge c1NodeB).mpr
     ⟨by decide, by decide, by decide, by decide⟩⟩

/-! ## C10 -/

/-- C10: the analyzer compares condition values with strict identity, so the
pair `(v == "5", v != 5)` is not reported contradictory, even though under the
loose equality used by `evaluateCondition` the two conditions can never hold
together in any variable snapshot. -/
theorem areConditionsContradictory_strict_identity :
    StateAnalyzer.areConditionsContradictory
        ⟨"v", CondOp.eq, JSValue.str "5"⟩ ⟨"v", CondOp.ne, JSValue.num 5⟩ = false
    ∧ ∀ vars : List VNVariable,
        (StateEvaluator.evaluateCondition ⟨"v", CondOp.eq, JSValue.str "5"⟩ vars
          && StateEvaluator.evaluateCondition ⟨"v", CondOp.ne, JSValue.num 5⟩ vars) = false := by
  refine ⟨by decide, ?_⟩
  intro vars
  unfold StateEvaluator.evaluateCondition
  dsimp only
  cases hF : vars.find? (fun v => v.id == "v") with
  | none => simp [hF]
  | some v =>
    simp only [hF]
    cases hc : v.currentValue with
    | num q =>
      simp [looseEq, jsStrToNum_five]
    | nan => simp [looseEq]
    | str s =>
      by_cases h5 : s = "5"
      · subst h5
        decide
      · simp [looseEq, h5]
    | bool b => cases b <;> decide
